import Mathlib

/-!
# WISVCH/homedirs: the login form and the home-directory download

A shallow embedding of `main.go`: the username pattern and its matcher, the
form binding, the LDAP password check, and the POST handler of `/homedir/`.
Calls that leave the process (LDAP, the file system, the log) are recorded as a
trace of events; what they answer is read from a `World`.

Strings are sequences of code points, which is how Go's `regexp` reads its
input; every character the pattern accepts is ASCII.
-/

namespace Homedirs

/-! ## Constants of `main.go` -/

/-- The pattern of line 23, with the same escapes as in the Go source. -/
def UsernameRegex : String := "^[a-z][a-z\\d\\-_]+$"

/-- The LDAP server of line 24. -/
def serverAddress : String := "ldaps://ank.chnet"

/-- The format of the archive's path, line 25. -/
def filenamePattern : String := "/data/%s.zip"

/-- The format of the suggested download name, line 26. -/
def downloadName : String := "ch-homedir-%s.zip"

/-! ## The fragment of Go's `regexp` that the pattern uses -/

/-- A bracket expression: a list of inclusive ranges, possibly negated. -/
structure CharClass where
  negated : Bool
  ranges : List (Char × Char)
  deriving DecidableEq, Repr

/-- How often a character class may repeat. -/
inductive Rep where
  | one
  | plus
  | star
  | opt
  deriving DecidableEq, Repr

/-- One piece of a pattern without groups or alternation. Without flags `^` is
the beginning of the text and `$` is the end of the text (not of a line). -/
inductive Piece where
  | beginText
  | endText
  | chars (cls : CharClass) (rep : Rep)
  deriving DecidableEq, Repr

/-- Membership of a character in a bracket expression. -/
def CharClass.test (cls : CharClass) (c : Char) : Bool :=
  (cls.ranges.any fun r => decide (r.1 ≤ c) && decide (c ≤ r.2)) != cls.negated

/-- The ranges an escape stands for inside or outside brackets: `\d` is the
ASCII digits, an escaped punctuation character is itself. -/
def escapeRanges (c : Char) : Option (List (Char × Char)) :=
  if c = 'd' then some [('0', '9')]
  else if c.isAlphanum then none
  else some [(c, c)]

/-- The items of a bracket expression up to the closing bracket; returns the
ranges read and the rest of the pattern. -/
def parseClassItems : Nat → List Char → List (Char × Char) →
    Option (List (Char × Char) × List Char)
  | 0, _, _ => none
  | _ + 1, [], _ => none
  | fuel + 1, c :: rest, acc =>
    if c = ']' then some (acc.reverse, rest)
    else if c = '\\' then
      match rest with
      | [] => none
      | e :: rest2 =>
        match escapeRanges e with
        | none => none
        | some rs => parseClassItems fuel rest2 (rs.reverse ++ acc)
    else
      match rest with
      | '-' :: hi :: rest2 =>
        if hi = ']' then parseClassItems fuel rest ((c, c) :: acc)
        else if hi = '\\' then none
        else if hi < c then none
        else parseClassItems fuel rest2 ((c, hi) :: acc)
      | _ => parseClassItems fuel rest ((c, c) :: acc)

/-- A bracket expression, read after its opening bracket. -/
def parseClass (rest : List Char) : Option (CharClass × List Char) :=
  match rest with
  | '^' :: rest2 =>
    (parseClassItems rest2.length rest2 []).map fun p => (⟨true, p.1⟩, p.2)
  | _ =>
    (parseClassItems rest.length rest []).map fun p => (⟨false, p.1⟩, p.2)

/-- The repetition operator that follows an atom, if any. -/
def parseRep (rest : List Char) : Rep × List Char :=
  match rest with
  | '+' :: rest2 => (Rep.plus, rest2)
  | '*' :: rest2 => (Rep.star, rest2)
  | '?' :: rest2 => (Rep.opt, rest2)
  | _ => (Rep.one, rest)

/-- Parser of the fragment: anchors, bracket expressions, escapes, the dot and
literal characters, each character atom with an optional `+`, `*` or `?`.
Anything else (groups, alternation, counted repetition) is refused. -/
def parsePieces : Nat → List Char → Option (List Piece)
  | 0, _ => none
  | _ + 1, [] => some []
  | fuel + 1, c :: rest =>
    if c = '^' then (parsePieces fuel rest).map (Piece.beginText :: ·)
    else if c = '$' then (parsePieces fuel rest).map (Piece.endText :: ·)
    else if c = '[' then
      match parseClass rest with
      | none => none
      | some (cls, rest2) =>
        let (rep, rest3) := parseRep rest2
        (parsePieces fuel rest3).map (Piece.chars cls rep :: ·)
    else if c = '\\' then
      match rest with
      | [] => none
      | e :: rest2 =>
        match escapeRanges e with
        | none => none
        | some rs =>
          let (rep, rest3) := parseRep rest2
          (parsePieces fuel rest3).map (Piece.chars ⟨false, rs⟩ rep :: ·)
    else if c = '(' ∨ c = ')' ∨ c = '|' ∨ c = '{' ∨ c = '*' ∨ c = '+' ∨ c = '?' then none
    else if c = '.' then
      let (rep, rest3) := parseRep rest
      (parsePieces fuel rest3).map (Piece.chars ⟨true, [('\n', '\n')]⟩ rep :: ·)
    else
      let (rep, rest3) := parseRep rest
      (parsePieces fuel rest3).map (Piece.chars ⟨false, [(c, c)]⟩ rep :: ·)

/-- The compiled form of a pattern, `none` when it does not parse. -/
def compile (pattern : String) : Option (List Piece) :=
  parsePieces (pattern.length + 1) pattern.data

/-- Zero or more characters of the class, then the continuation `k`. The flag
given to `k` says whether the position is still the beginning of the text. -/
def matchStar (cls : CharClass) (k : Bool → List Char → Bool) :
    Bool → List Char → Bool
  | atStart, [] => k atStart []
  | atStart, c :: rest =>
    k atStart (c :: rest) || (cls.test c && matchStar cls k false rest)

/-- Whether the pieces match a prefix of the input at the current position. -/
def matchHere : List Piece → Bool → List Char → Bool
  | [], _, _ => true
  | Piece.beginText :: ps, atStart, s => atStart && matchHere ps atStart s
  | Piece.endText :: ps, atStart, s => s.isEmpty && matchHere ps atStart s
  | Piece.chars cls Rep.one :: ps, _, s =>
    match s with
    | [] => false
    | c :: rest => cls.test c && matchHere ps false rest
  | Piece.chars cls Rep.plus :: ps, _, s =>
    match s with
    | [] => false
    | c :: rest => cls.test c && matchStar cls (matchHere ps) false rest
  | Piece.chars cls Rep.star :: ps, atStart, s =>
    matchStar cls (matchHere ps) atStart s
  | Piece.chars cls Rep.opt :: ps, atStart, s =>
    matchHere ps atStart s ||
      match s with
      | [] => false
      | c :: rest => cls.test c && matchHere ps false rest

/-- Unanchored search: a match may start at any position of the input. -/
def search (ps : List Piece) : Bool → List Char → Bool
  | atStart, [] => matchHere ps atStart []
  | atStart, c :: rest => matchHere ps atStart (c :: rest) || search ps false rest

/-- Model of `regexp.MatchString`: whether the text contains a match of the
pattern, and the parse error if the pattern does not compile. -/
def MatchString (pattern : String) (s : String) : Bool × Option String :=
  match compile pattern with
  | none => (false, some "error parsing regexp")
  | some ps => (search ps true s.data, none)

/-- Lines 95 to 99: the `validusername` validator, on the field's string. -/
def usernameValidator (username : String) : Bool :=
  (MatchString UsernameRegex username).1

/-- The pieces that `UsernameRegex` compiles to. -/
def usernamePieces : List Piece :=
  [Piece.beginText,
   Piece.chars ⟨false, [('a', 'z')]⟩ Rep.one,
   Piece.chars ⟨false, [('a', 'z'), ('0', '9'), ('-', '-'), ('_', '_')]⟩ Rep.plus,
   Piece.endText]

/-! ## `fmt.Sprintf` and `fmt.Errorf` on string operands -/

/-- What Go prints for operands that no verb consumed. -/
def extraOperands (args : List String) : List Char :=
  match args with
  | [] => []
  | _ :: _ => ("%!(EXTRA " ++ ", ".intercalate (args.map fun a => "string=" ++ a) ++ ")").data

/-- Formatting without flags or widths. The verbs `%s` and `%v` (and `%w` when
`wrap` is set, as in `Errorf`) print the next operand as it is; `%%` prints a
percent sign; any other verb prints Go's bad-verb notice. -/
def formatAux (wrap : Bool) : List Char → List String → List Char
  | [], args => extraOperands args
  | c :: rest, args =>
    if c = '%' then
      match rest with
      | [] => "%!(NOVERB)".data ++ extraOperands args
      | v :: rest2 =>
        if v = '%' then '%' :: formatAux wrap rest2 args
        else
          match args with
          | [] => ("%!" ++ String.singleton v ++ "(MISSING)").data ++ formatAux wrap rest2 []
          | a :: args2 =>
            if v = 's' ∨ v = 'v' ∨ (v = 'w' ∧ wrap = true) then
              a.data ++ formatAux wrap rest2 args2
            else
              ("%!" ++ String.singleton v ++ "(string=" ++ a ++ ")").data ++
                formatAux wrap rest2 args2
    else c :: formatAux wrap rest args

/-- Model of `fmt.Sprintf` with string operands. -/
def Sprintf (format : String) (args : List String) : String :=
  ⟨formatAux false format.data args⟩

/-- Model of `fmt.Errorf`: the message of the error it builds. -/
def Errorf (format : String) (args : List String) : String :=
  ⟨formatAux true format.data args⟩

/-! ## `ldap.EscapeFilter` -/

/-- Lowercase hexadecimal digit of a value below sixteen. -/
def hexDigit (n : Nat) : Char :=
  "0123456789abcdef".data.getD n '0'

/-- The three characters that replace an escaped byte. -/
def escapeByte (b : Nat) : List Char :=
  ['\\', hexDigit (b / 16), hexDigit (b % 16)]

/-- The bytes go-ldap escapes: the parentheses, the asterisk, the backslash, NUL
and every byte above 0x7f. -/
def mustEscape (b : Nat) : Bool :=
  decide (b > 0x7f) || b == '('.toNat || b == ')'.toNat || b == '\\'.toNat ||
    b == '*'.toNat || b == 0

/-- Model of go-ldap's `EscapeFilter`, which works byte by byte on the UTF-8
encoding: an ASCII character is one byte, any other character is a run of bytes
above 0x7f, each of which is escaped. -/
def EscapeFilter (filter : String) : String :=
  ⟨filter.data.flatMap fun c =>
    if c.toNat < 0x80 then
      if mustEscape c.toNat then escapeByte c.toNat else [c]
    else
      (String.utf8EncodeChar c).flatMap fun b => escapeByte b.toNat⟩

/-! ## The world outside the process, and what the program does to it -/

/-- An error of `os.Stat`. -/
inductive FileError where
  | NotExist
  | Other (msg : String)
  deriving DecidableEq, Repr

/-- Model of `os.IsNotExist`. -/
def IsNotExist (err : Option FileError) : Bool :=
  match err with
  | some FileError.NotExist => true
  | _ => false

/-- The answers of the LDAP server and of the file system. An error is `some`
message, `none` is Go's `nil`. The answer to a dial includes the TLS handshake
against the pool of CA roots. -/
structure World where
  /-- Result of `ldap.DialURL` for an address. -/
  DialURL : String → Option String
  /-- The server's answer to a simple bind with a DN and a password. -/
  Bind : String → String → Option String
  /-- The error of `os.Stat` for a path. -/
  Stat : String → Option FileError

/-- Calls that leave the process, in the order they happen. -/
inductive Event where
  | DialURL (addr : String) (connected : Bool)
  | Bind (dn password : String)
  | Close
  | Printf (line : String)
  | Stat (name : String)
  deriving DecidableEq, Repr

/-- What the handler writes to the client: `c.HTML` or `c.FileAttachment`. -/
inductive Response where
  | HTML (code : Nat) (name : String) (obj : List (String × String))
  | FileAttachment (filepath filename : String)
  deriving DecidableEq, Repr

/-- Model of go-ldap's `conn.Bind`: an empty password is refused by the client
before anything is sent; otherwise the server answers. -/
def connBind (w : World) (dn password : String) : Option String :=
  if password = "" then some "ldap: empty password not allowed by the client"
  else w.Bind dn password

/-- Lines 101 to 115: dial, deferred close, bind. Returns the trace of LDAP
calls and the error (`none` for `nil`). -/
def validatePassword (w : World) (username password : String) :
    List Event × Option String :=
  match w.DialURL serverAddress with
  | some err =>
    ([Event.DialURL serverAddress false], some (Errorf "could dial LDAP server: %w" [err]))
  | none =>
    let dn := Sprintf "uid=%s,ou=People,dc=ank,dc=chnet" [EscapeFilter username]
    match connBind w dn password with
    | some err =>
      ([Event.DialURL serverAddress true, Event.Bind dn password, Event.Close],
        some (Errorf "LDAP bind error: %w" [err]))
    | none =>
      ([Event.DialURL serverAddress true, Event.Bind dn password, Event.Close], none)

/-! ## The form and its binding -/

/-- Lines 18 to 21. -/
structure LoginForm where
  Username : String
  Password : String
  deriving DecidableEq, Repr

/-- What the binding reads from the POST form: the values of its `username`
and `password` fields, empty when a field is absent. A body that cannot be
parsed leaves both fields of the struct empty and is answered like the empty
form. -/
structure Request where
  username : String
  password : String
  deriving DecidableEq, Repr

/-- The `required` tag on a string field. -/
def required (value : String) : Bool :=
  value != ""

/-- The tags of `Username`, in order: `required,validusername`. The first tag
that fails is the field's error. -/
def validateUsername (value : String) : Option String :=
  if !required value then some "Field validation for 'Username' failed on the 'required' tag"
  else if !usernameValidator value then
    some "Field validation for 'Username' failed on the 'validusername' tag"
  else none

/-- The tag of `Password`: `required`. -/
def validatePasswordField (value : String) : Option String :=
  if !required value then some "Field validation for 'Password' failed on the 'required' tag"
  else none

/-- Model of `c.ShouldBindWith(&form, binding.FormPost)`: the fields are copied
from the form, then every field is validated; the error is `nil` only if no
field failed. The struct is filled in either case. -/
def ShouldBindWith (req : Request) : LoginForm × Option String :=
  let form : LoginForm := ⟨req.username, req.password⟩
  match (validateUsername form.Username).toList ++ (validatePasswordField form.Password).toList with
  | [] => (form, none)
  | e :: es => (form, some ("\n".intercalate (e :: es)))

/-! ## The POST handler of `/homedir/` -/

/-- The page shown when the binding fails (lines 83 to 86). -/
def invalidUsernamePage (username : String) : Response :=
  Response.HTML 200 "form.html"
    [("username", username), ("error", "Invalid username (must be lowercase)")]

/-- The page shown when `validatePassword` returns an error (lines 65 to 68). -/
def couldNotAuthenticatePage (username : String) : Response :=
  Response.HTML 200 "form.html" [("username", username), ("error", "Could not authenticate")]

/-- The page shown when the archive is missing (lines 74 to 77). -/
def noHomeDirectoryPage (username : String) : Response :=
  Response.HTML 200 "form.html"
    [("username", username), ("error", Sprintf "No home directory found for %s" [username])]

/-- Lines 59 to 89: the trace of outside calls and the response. -/
def postHomedir (w : World) (req : Request) : List Event × Response :=
  match ShouldBindWith req with
  | (form, none) =>
    match validatePassword w form.Username form.Password with
    | (ldapCalls, some err) =>
      (ldapCalls ++ [Event.Printf (Sprintf "failure for %s: %v" [form.Username, err])],
        couldNotAuthenticatePage form.Username)
    | (ldapCalls, none) =>
      let filename := Sprintf filenamePattern [form.Username]
      if IsNotExist (w.Stat filename) then
        (ldapCalls ++ [Event.Printf (Sprintf "success for %s" [form.Username]),
            Event.Stat filename],
          noHomeDirectoryPage form.Username)
      else
        (ldapCalls ++ [Event.Printf (Sprintf "success for %s" [form.Username]),
            Event.Stat filename],
          Response.FileAttachment filename (Sprintf downloadName [form.Username]))
  | (form, some _) => ([], invalidUsernamePage form.Username)

/-- The first branch of the handler (lines 62 to 81), taken when the binding
succeeded; a name for it, used to state what the handler does. -/
def afterBinding (w : World) (username password : String) : List Event × Response :=
  match validatePassword w username password with
  | (ldapCalls, some err) =>
    (ldapCalls ++ [Event.Printf (Sprintf "failure for %s: %v" [username, err])],
      couldNotAuthenticatePage username)
  | (ldapCalls, none) =>
    if IsNotExist (w.Stat (Sprintf filenamePattern [username])) then
      (ldapCalls ++ [Event.Printf (Sprintf "success for %s" [username]),
          Event.Stat (Sprintf filenamePattern [username])],
        noHomeDirectoryPage username)
    else
      (ldapCalls ++ [Event.Printf (Sprintf "success for %s" [username]),
          Event.Stat (Sprintf filenamePattern [username])],
        Response.FileAttachment (Sprintf filenamePattern [username])
          (Sprintf downloadName [username]))

/-! ## Start-up: the CA root (lines 30 to 36 and 92) -/

/-- What start-up reads from its surroundings. -/
structure StartupWorld where
  /-- Result of `ioutil.ReadFile` for a path: an error message or the content. -/
  ReadFile : String → Except String String
  /-- The certificates `AppendCertsFromPEM` can parse out of PEM data. -/
  certificatesIn : String → List String
  /-- The error with which loading a template file fails, `none` when it loads. -/
  LoadHTMLFiles : String → Option String
  /-- The error with which `r.Run()` returns, `none` while it keeps serving. -/
  Run : Option String

/-- How start-up ends: `log.Fatal` with a message, a panic, or the server
running with the given pool of CA roots. -/
inductive Startup where
  | Fatal (msg : String)
  | Panic (msg : String)
  | Serving (roots : List String)
  deriving DecidableEq, Repr

/-- The start-up path of `main`: read the CA file (fatal on error, lines 32 to
35), add its certificates to `roots` (the boolean `AppendCertsFromPEM` returns
is dropped, line 36), load the template (`r.LoadHTMLFiles` panics on error,
line 48), then `log.Fatal(r.Run())` (line 92). Registering the validator under
a fixed tag and adding the routes cannot fail and is left out. -/
def main (w : StartupWorld) : Startup :=
  match w.ReadFile "static/wisvch.crt" with
  | Except.error err => Startup.Fatal (Sprintf "could not read CA root: %v" [err])
  | Except.ok cert =>
    let roots : List String := [] ++ w.certificatesIn cert
    match w.LoadHTMLFiles "static/form.html" with
    | some err => Startup.Panic err
    | none =>
      match w.Run with
      | some err => Startup.Fatal err
      | none => Startup.Serving roots

/-! ## Vocabulary of the properties -/

/-- Number of bind attempts in a trace. -/
def bindCount (tr : List Event) : Nat :=
  tr.countP fun e => match e with
    | Event.Bind _ _ => true
    | _ => false

/-- Number of closes in a trace. -/
def closeCount (tr : List Event) : Nat :=
  tr.countP fun e => match e with
    | Event.Close => true
    | _ => false

/-- Number of connections still open after a trace; `none` if a close happens
with no connection open. -/
def openConnections : List Event → Nat → Option Nat
  | [], n => some n
  | Event.DialURL _ true :: tr, n => openConnections tr (n + 1)
  | Event.Close :: tr, n => if n = 0 then none else openConnections tr (n - 1)
  | _ :: tr, n => openConnections tr n

/-- Whether a trace shows any LDAP or file-system call. -/
def touchesOutside (tr : List Event) : Bool :=
  tr.any fun e => match e with
    | Event.Printf _ => false
    | _ => true

/-- Splitting at a separator, as `strings.Split` does for a one-character
separator. -/
def splitOn (sep : Char) : List Char → List (List Char)
  | [] => [[]]
  | c :: cs =>
    if c = sep then [] :: splitOn sep cs
    else
      match splitOn sep cs with
      | [] => [[c]]
      | h :: t => (c :: h) :: t

/-- A world that answers every dial, every bind and every stat the same way;
used for concrete runs. -/
def sampleWorld (dial bind : Option String) (stat : Option FileError) : World :=
  ⟨fun _ => dial, fun _ _ => bind, fun _ => stat⟩

/-- A username of 256 characters that the pattern admits; `<name>.zip` is then
longer than the 255 bytes a file name may have. -/
def longName : String :=
  String.mk ('a' :: List.replicate 255 'b')

/-- A world in which every dial and bind succeeds and `os.Stat` fails with
`file name too long` on the path of `longName`. -/
def nameTooLongWorld : World :=
  ⟨fun _ => none, fun _ _ => none,
    fun p => if p.length ≤ 261 then none else some (FileError.Other "file name too long")⟩

/-! ## The validator, characterised -/

/-- A lowercase ASCII letter. -/
def isLowerLetter (c : Char) : Prop := 'a' ≤ c ∧ c ≤ 'z'

/-- A lowercase ASCII letter, an ASCII digit, a hyphen or an underscore. -/
def isNameChar (c : Char) : Prop :=
  ('a' ≤ c ∧ c ≤ 'z') ∨ ('0' ≤ c ∧ c ≤ '9') ∨ c = '-' ∨ c = '_'

/-- The shape the pattern describes: a lowercase letter followed by one or more
name characters. -/
def WellFormedName (s : String) : Prop :=
  ∃ c rest, s.data = c :: rest ∧ rest ≠ [] ∧ isLowerLetter c ∧ ∀ d ∈ rest, isNameChar d

theorem compile_UsernameRegex : compile UsernameRegex = some usernamePieces := by
  decide

theorem test_lower (c : Char) :
    (CharClass.mk false [('a', 'z')]).test c = true ↔ isLowerLetter c := by
  simp [CharClass.test, isLowerLetter]

theorem test_name (c : Char) :
    (CharClass.mk false [('a', 'z'), ('0', '9'), ('-', '-'), ('_', '_')]).test c = true ↔
      isNameChar c := by
  simp only [CharClass.test, isNameChar, List.any_cons, List.any_nil, Bool.or_false,
    bne_iff_ne, ne_eq, Bool.not_eq_false, Bool.or_eq_true, Bool.and_eq_true,
    decide_eq_true_eq]
  constructor
  · rintro (h | h | h | h)
    · exact Or.inl h
    · exact Or.inr (Or.inl h)
    · exact Or.inr (Or.inr (Or.inl (Char.le_antisymm h.2 h.1)))
    · exact Or.inr (Or.inr (Or.inr (Char.le_antisymm h.2 h.1)))
  · rintro (h | h | h | h)
    · exact Or.inl h
    · exact Or.inr (Or.inl h)
    · subst h; exact Or.inr (Or.inr (Or.inl ⟨by decide, by decide⟩))
    · subst h; exact Or.inr (Or.inr (Or.inr ⟨by decide, by decide⟩))

theorem matchStar_isEmpty (cls : CharClass) (k : Bool → List Char → Bool)
    (hk : ∀ b s, k b s = s.isEmpty) (l : List Char) (b : Bool) :
    matchStar cls k b l = true ↔ ∀ d ∈ l, cls.test d = true := by
  induction l generalizing b with
  | nil => simp [matchStar, hk]
  | cons c rest ih => simp [matchStar, hk, ih]

theorem matchHere_not_atStart (l : List Char) :
    matchHere usernamePieces false l = false := by
  simp [usernamePieces, matchHere]

theorem search_not_atStart (l : List Char) : search usernamePieces false l = false := by
  induction l with
  | nil => simp [search, matchHere_not_atStart]
  | cons c rest ih => simp [search, matchHere_not_atStart, ih]

theorem search_atStart (l : List Char) :
    search usernamePieces true l = matchHere usernamePieces true l := by
  cases l with
  | nil => simp [search]
  | cons c rest => simp [search, search_not_atStart]

theorem matchHere_usernamePieces (l : List Char) :
    matchHere usernamePieces true l = true ↔
      ∃ c rest, l = c :: rest ∧ rest ≠ [] ∧ isLowerLetter c ∧ ∀ d ∈ rest, isNameChar d := by
  cases l with
  | nil => simp [usernamePieces, matchHere]
  | cons c rest =>
    cases rest with
    | nil => simp [usernamePieces, matchHere]
    | cons d rest2 =>
      simp only [usernamePieces, matchHere, Bool.true_and, Bool.and_eq_true, test_lower,
        test_name]
      rw [matchStar_isEmpty _ _ (fun b s => by simp)]
      simp only [test_name]
      constructor
      · rintro ⟨h1, h2, h3⟩
        refine ⟨c, d :: rest2, rfl, by simp, h1, ?_⟩
        intro x hx
        rcases List.mem_cons.1 hx with rfl | hx
        · exact h2
        · exact h3 x hx
      · rintro ⟨c2, r2, heq, _, h1, h2⟩
        cases heq
        exact ⟨h1, h2 d (List.mem_cons_self _ _), fun x hx => h2 x (List.mem_cons_of_mem _ hx)⟩

theorem usernameValidator_iff (s : String) :
    usernameValidator s = true ↔ WellFormedName s := by
  unfold usernameValidator MatchString
  rw [compile_UsernameRegex]
  simp only [search_atStart]
  exact matchHere_usernamePieces s.data

/-- C1: the validator accepts exactly the strings made of a lowercase letter
followed by one or more characters among a-z, 0-9, hyphen and underscore; the
listed samples are accepted or rejected as stated, and a trailing newline, an
uppercase letter or a non-ASCII digit is refused. -/
theorem C1_usernameValidator_spec :
    (∀ s : String, usernameValidator s = true ↔
      ∃ c rest, s.data = c :: rest ∧ 1 ≤ rest.length ∧ ('a' ≤ c ∧ c ≤ 'z') ∧
        ∀ d ∈ rest, ('a' ≤ d ∧ d ≤ 'z') ∨ ('0' ≤ d ∧ d ≤ '9') ∨ d = '-' ∨ d = '_') ∧
    (∀ s : String, usernameValidator s = true → 2 ≤ s.length) ∧
    usernameValidator "ab1" = true ∧ usernameValidator "a_b-2" = true ∧
    usernameValidator "Ab1" = false ∧ usernameValidator "1ab" = false ∧
    usernameValidator "a" = false ∧ usernameValidator "" = false ∧
    usernameValidator "ab1\n" = false ∧ usernameValidator "abC" = false ∧
    usernameValidator "ab٣" = false := by
  refine ⟨?_, ?_, by decide, by decide, by decide, by decide, by decide, by decide,
    by decide, by decide, by decide⟩
  · intro s
    rw [usernameValidator_iff]
    constructor
    · rintro ⟨c, rest, h1, h2, h3, h4⟩
      exact ⟨c, rest, h1, List.length_pos.2 h2, h3, h4⟩
    · rintro ⟨c, rest, h1, h2, h3, h4⟩
      exact ⟨c, rest, h1, List.length_pos.1 h2, h3, h4⟩
  · intro s hs
    obtain ⟨c, rest, h1, h2, -, -⟩ := (usernameValidator_iff s).1 hs
    have h3 : 0 < rest.length := List.length_pos.2 h2
    simp only [String.length, h1, List.length_cons]
    omega

/-! ## The binding and the handler, unfolded -/

theorem validateUsername_eq_none (v : String) :
    validateUsername v = none ↔ usernameValidator v = true := by
  unfold validateUsername required
  by_cases h : v = ""
  · subst h
    have h0 : usernameValidator "" = false := by decide
    simp [h0]
  · cases hv : usernameValidator v <;> simp [h]

theorem validatePasswordField_eq_none (v : String) :
    validatePasswordField v = none ↔ v ≠ "" := by
  unfold validatePasswordField required
  by_cases h : v = "" <;> simp [h]

theorem ShouldBindWith_fst (req : Request) :
    (ShouldBindWith req).1 = ⟨req.username, req.password⟩ := by
  unfold ShouldBindWith
  dsimp only
  cases validateUsername req.username <;> cases validatePasswordField req.password <;> rfl

theorem ShouldBindWith_snd (req : Request) :
    (ShouldBindWith req).2 = none ↔
      usernameValidator req.username = true ∧ req.password ≠ "" := by
  rw [← validateUsername_eq_none, ← validatePasswordField_eq_none]
  unfold ShouldBindWith
  dsimp only
  cases validateUsername req.username <;> cases validatePasswordField req.password <;> simp

theorem postHomedir_rejected (w : World) (req : Request)
    (h : ¬ (usernameValidator req.username = true ∧ req.password ≠ "")) :
    postHomedir w req = ([], invalidUsernamePage req.username) := by
  have h1 := ShouldBindWith_fst req
  have h2 := ShouldBindWith_snd req
  unfold postHomedir
  rcases hb : ShouldBindWith req with ⟨form, err⟩
  rw [hb] at h1 h2
  cases err with
  | none => exact absurd (h2.1 rfl) h
  | some e => simp only at h1; subst h1; rfl

theorem postHomedir_accepted (w : World) (req : Request)
    (h : usernameValidator req.username = true ∧ req.password ≠ "") :
    postHomedir w req = afterBinding w req.username req.password := by
  have h1 := ShouldBindWith_fst req
  have h2 := ShouldBindWith_snd req
  unfold postHomedir afterBinding
  rcases hb : ShouldBindWith req with ⟨form, err⟩
  rw [hb] at h1 h2
  cases err with
  | none => simp only at h1; subst h1; rfl
  | some e => simp only at h2; exact absurd h (by simpa using h2)

theorem validatePassword_head (w : World) (u p : String) :
    ∃ connected rest, (validatePassword w u p).1 = Event.DialURL serverAddress connected :: rest := by
  unfold validatePassword
  cases w.DialURL serverAddress with
  | some e => exact ⟨false, [], rfl⟩
  | none =>
    dsimp only
    cases connBind w (Sprintf "uid=%s,ou=People,dc=ank,dc=chnet" [EscapeFilter u]) p <;>
      exact ⟨true, _, rfl⟩

theorem validatePassword_ok_iff (w : World) (u p : String) :
    (validatePassword w u p).2 = none ↔
      w.DialURL serverAddress = none ∧
        connBind w (Sprintf "uid=%s,ou=People,dc=ank,dc=chnet" [EscapeFilter u]) p = none := by
  unfold validatePassword
  cases h1 : w.DialURL serverAddress with
  | some e => simp
  | none =>
    dsimp only
    cases h2 : connBind w (Sprintf "uid=%s,ou=People,dc=ank,dc=chnet" [EscapeFilter u]) p <;> simp

theorem validatePassword_ok_password (w : World) (u p : String)
    (h : (validatePassword w u p).2 = none) : p ≠ "" := by
  intro hp
  have h2 := ((validatePassword_ok_iff w u p).1 h).2
  simp [connBind, hp] at h2

/-- The three ways the first branch of the handler ends. -/
theorem afterBinding_cases (w : World) (u p : String) :
    (∃ err, (validatePassword w u p).2 = some err ∧
      afterBinding w u p =
        ((validatePassword w u p).1 ++ [Event.Printf (Sprintf "failure for %s: %v" [u, err])],
          couldNotAuthenticatePage u)) ∨
    ((validatePassword w u p).2 = none ∧
      IsNotExist (w.Stat (Sprintf filenamePattern [u])) = true ∧
      afterBinding w u p =
        ((validatePassword w u p).1 ++ [Event.Printf (Sprintf "success for %s" [u]),
            Event.Stat (Sprintf filenamePattern [u])],
          noHomeDirectoryPage u)) ∨
    ((validatePassword w u p).2 = none ∧
      IsNotExist (w.Stat (Sprintf filenamePattern [u])) = false ∧
      afterBinding w u p =
        ((validatePassword w u p).1 ++ [Event.Printf (Sprintf "success for %s" [u]),
            Event.Stat (Sprintf filenamePattern [u])],
          Response.FileAttachment (Sprintf filenamePattern [u]) (Sprintf downloadName [u]))) := by
  unfold afterBinding
  rcases hv : validatePassword w u p with ⟨calls, err⟩
  cases err with
  | some e => exact Or.inl ⟨e, rfl, rfl⟩
  | none =>
    cases hs : IsNotExist (w.Stat (Sprintf filenamePattern [u])) with
    | true => exact Or.inr (Or.inl ⟨rfl, rfl, by simp [hs]⟩)
    | false => exact Or.inr (Or.inr ⟨rfl, rfl, by simp [hs]⟩)

theorem Sprintf_filenamePattern (u : String) :
    Sprintf filenamePattern [u] = "/data/" ++ u ++ ".zip" := rfl

theorem Sprintf_downloadName (u : String) :
    Sprintf downloadName [u] = "ch-homedir-" ++ u ++ ".zip" := rfl

theorem Sprintf_noHome (u : String) :
    Sprintf "No home directory found for %s" [u] = "No home directory found for " ++ u := by
  have h : Sprintf "No home directory found for %s" [u] =
      "No home directory found for " ++ u ++ "" := rfl
  rw [h]
  apply String.ext
  simp

theorem couldNotAuthenticatePage_ne_invalid (u v : String) :
    couldNotAuthenticatePage u ≠ invalidUsernamePage v := by
  unfold couldNotAuthenticatePage invalidUsernamePage
  intro h
  injection h with _ _ h3
  have h4 : ("Could not authenticate" : String) = "Invalid username (must be lowercase)" := by
    simpa using congrArg (fun l => (l.map Prod.snd).getLast?) h3
  exact absurd h4 (by decide)

theorem noHomeDirectoryPage_ne_invalid (u v : String) :
    noHomeDirectoryPage u ≠ invalidUsernamePage v := by
  unfold noHomeDirectoryPage invalidUsernamePage
  intro h
  injection h with _ _ h3
  have h4 : Sprintf "No home directory found for %s" [u] =
      "Invalid username (must be lowercase)" := by
    simpa using congrArg (fun l => (l.map Prod.snd).getLast?) h3
  rw [Sprintf_noHome] at h4
  have h5 := congrArg (fun t : String => t.data.head?) h4
  simp at h5

theorem noHomeDirectoryPage_ne_couldNot (u v : String) :
    noHomeDirectoryPage u ≠ couldNotAuthenticatePage v := by
  unfold noHomeDirectoryPage couldNotAuthenticatePage
  intro h
  injection h with _ _ h3
  have h4 : Sprintf "No home directory found for %s" [u] = "Could not authenticate" := by
    simpa using congrArg (fun l => (l.map Prod.snd).getLast?) h3
  rw [Sprintf_noHome] at h4
  have h5 := congrArg (fun t : String => t.data.head?) h4
  simp at h5

theorem afterBinding_trace_head (w : World) (u p : String) :
    ∃ connected rest, (afterBinding w u p).1 = Event.DialURL serverAddress connected :: rest := by
  obtain ⟨c, rest, hc⟩ := validatePassword_head w u p
  rcases afterBinding_cases w u p with ⟨e, -, h⟩ | ⟨-, -, h⟩ | ⟨-, -, h⟩ <;>
    exact ⟨c, _, by rw [h, hc]; rfl⟩

theorem afterBinding_ne_invalid (w : World) (u p v : String) :
    (afterBinding w u p).2 ≠ invalidUsernamePage v := by
  rcases afterBinding_cases w u p with ⟨e, -, h⟩ | ⟨-, -, h⟩ | ⟨-, -, h⟩ <;> rw [h]
  · exact couldNotAuthenticatePage_ne_invalid u v
  · exact noHomeDirectoryPage_ne_invalid u v
  · intro h2
    simp [invalidUsernamePage] at h2

/-! ## The form binding decides what is reached -/

/-- C2: a POST request whose username the validator refuses leaves no trace at
all (no dial, no bind, no close, no stat, not even a log line) and is answered
with the invalid-username page, never with a file. -/
theorem C2_refused_username_reaches_nothing (w : World) (req : Request)
    (h : usernameValidator req.username = false) :
    (postHomedir w req).1 = [] ∧
    touchesOutside (postHomedir w req).1 = false ∧
    (postHomedir w req).2 = invalidUsernamePage req.username ∧
    ∀ p n, (postHomedir w req).2 ≠ Response.FileAttachment p n := by
  have hr := postHomedir_rejected w req (by simp [h])
  rw [hr]
  refine ⟨rfl, rfl, rfl, ?_⟩
  intro p n h2
  simp [invalidUsernamePage] at h2

theorem C2_refused_username_witness :
    (usernameValidator "a; dc=evil" = false ∧
      postHomedir (sampleWorld none none none) ⟨"a; dc=evil", "secret"⟩ =
        ([], invalidUsernamePage "a; dc=evil")) ∧
    (usernameValidator "BadName" = false ∧
      postHomedir (sampleWorld none none none) ⟨"BadName", "secret"⟩ =
        ([], invalidUsernamePage "BadName")) := by
  have h1 := C2_refused_username_reaches_nothing (sampleWorld none none none)
    ⟨"a; dc=evil", "secret"⟩ (by decide)
  have h2 := C2_refused_username_reaches_nothing (sampleWorld none none none)
    ⟨"BadName", "secret"⟩ (by decide)
  exact ⟨⟨by decide, Prod.ext h1.1 h1.2.2.1⟩, ⟨by decide, Prod.ext h2.1 h2.2.2.1⟩⟩

/-- C3, as stated, fails: the validator accepts the username `ab1`, yet with an
empty password the form binding fails; nothing is dialled and the
answer is the invalid-username page. -/
theorem C3_counterexample_empty_password :
    usernameValidator "ab1" = true ∧
    postHomedir (sampleWorld none none none) ⟨"ab1", ""⟩ = ([], invalidUsernamePage "ab1") := by
  decide

/-- C3, amended: the handler goes on to `validatePassword` (its trace shows the
dial) exactly when the validator accepts the username and the password is not
empty; in every other case, and only then, the answer is the invalid-username
page. Its message is one fixed string, whatever the input, and the pattern does
not occur in it. -/
theorem C3_binding_amended (w : World) (req : Request) :
    ((∃ connected, Event.DialURL serverAddress connected ∈ (postHomedir w req).1) ↔
      (usernameValidator req.username = true ∧ req.password ≠ "")) ∧
    ((postHomedir w req).2 = invalidUsernamePage req.username ↔
      ¬ (usernameValidator req.username = true ∧ req.password ≠ "")) ∧
    (∀ u, invalidUsernamePage u = Response.HTML 200 "form.html"
      [("username", u), ("error", "Invalid username (must be lowercase)")]) ∧
    ¬ (UsernameRegex.data <:+: "Invalid username (must be lowercase)".data) := by
  refine ⟨?_, ?_, fun _ => rfl, by decide⟩
  · by_cases hg : usernameValidator req.username = true ∧ req.password ≠ ""
    · rw [postHomedir_accepted w req hg]
      obtain ⟨c, rest, hc⟩ := afterBinding_trace_head w req.username req.password
      simp only [hg, ne_eq, not_false_eq_true, and_self, iff_true]
      exact ⟨c, by rw [hc]; exact List.mem_cons_self _ _⟩
    · rw [postHomedir_rejected w req hg]
      simp only [List.not_mem_nil, exists_false, false_iff]
      exact hg
  · by_cases hg : usernameValidator req.username = true ∧ req.password ≠ ""
    · rw [postHomedir_accepted w req hg]
      constructor
      · intro h
        exact absurd h (afterBinding_ne_invalid w _ _ _)
      · intro h
        exact absurd hg h
    · rw [postHomedir_rejected w req hg]
      exact ⟨fun _ => hg, fun _ => rfl⟩

theorem postHomedir_attachment (w : World) (req : Request) (p n : String)
    (h : (postHomedir w req).2 = Response.FileAttachment p n) :
    (usernameValidator req.username = true ∧ req.password ≠ "") ∧
    (validatePassword w req.username req.password).2 = none ∧
    IsNotExist (w.Stat (Sprintf filenamePattern [req.username])) = false ∧
    p = Sprintf filenamePattern [req.username] ∧ n = Sprintf downloadName [req.username] := by
  by_cases hg : usernameValidator req.username = true ∧ req.password ≠ ""
  · rw [postHomedir_accepted w req hg] at h
    rcases afterBinding_cases w req.username req.password with
      ⟨e, -, h2⟩ | ⟨-, -, h2⟩ | ⟨h3, h4, h2⟩ <;> rw [h2] at h
    · simp [couldNotAuthenticatePage] at h
    · simp [noHomeDirectoryPage] at h
    · simp only [Response.FileAttachment.injEq] at h
      exact ⟨hg, h3, h4, h.1.symm, h.2.symm⟩
  · rw [postHomedir_rejected w req hg] at h
    simp [invalidUsernamePage] at h

/-! ## The archive and the answers -/

/-- C4: the path handed to `os.Stat` and to `FileAttachment` is `/data/<u>.zip`
and the suggested name is `ch-homedir-<u>.zip`, for every username; whenever
the handler sends a file, both are these functions of the request's username,
so two requests with the same username are served the same path and name
whatever their passwords and whatever the world answers. For `alice` the path
ends in `/alice.zip` and the name is `ch-homedir-alice.zip`. -/
theorem C4_path_and_download_name :
    (∀ u : String, Sprintf filenamePattern [u] = "/data/" ++ u ++ ".zip" ∧
      Sprintf downloadName [u] = "ch-homedir-" ++ u ++ ".zip") ∧
    (∀ (w : World) (req : Request) (p n : String),
      (postHomedir w req).2 = Response.FileAttachment p n →
        p = "/data/" ++ req.username ++ ".zip" ∧
        n = "ch-homedir-" ++ req.username ++ ".zip") ∧
    (∀ (w1 w2 : World) (r1 r2 : Request) (p1 n1 p2 n2 : String),
      r1.username = r2.username →
      (postHomedir w1 r1).2 = Response.FileAttachment p1 n1 →
      (postHomedir w2 r2).2 = Response.FileAttachment p2 n2 → p1 = p2 ∧ n1 = n2) ∧
    Sprintf filenamePattern ["alice"] = "/data" ++ "/alice.zip" ∧
    Sprintf downloadName ["alice"] = "ch-homedir-alice.zip" := by
  refine ⟨fun u => ⟨rfl, rfl⟩, ?_, ?_, by decide, by decide⟩
  · intro w req p n h
    obtain ⟨-, -, -, hp, hn⟩ := postHomedir_attachment w req p n h
    exact ⟨hp, hn⟩
  · intro w1 w2 r1 r2 p1 n1 p2 n2 hu h1 h2
    obtain ⟨-, -, -, hp1, hn1⟩ := postHomedir_attachment w1 r1 p1 n1 h1
    obtain ⟨-, -, -, hp2, hn2⟩ := postHomedir_attachment w2 r2 p2 n2 h2
    rw [hp1, hn1, hp2, hn2, hu]
    exact ⟨rfl, rfl⟩

/-- C5: once the form passed the binding, any two errors of `validatePassword`
(a bind refused for a wrong password, a bind refused for an unknown identity, a
failed dial) are answered with the same response: the form page with the
request's username and the fixed error `Could not authenticate`. -/
theorem C5_authentication_failures_look_alike (w1 w2 : World) (req : Request)
    (hform : (ShouldBindWith req).2 = none)
    (h1 : (validatePassword w1 req.username req.password).2 ≠ none)
    (h2 : (validatePassword w2 req.username req.password).2 ≠ none) :
    (postHomedir w1 req).2 = (postHomedir w2 req).2 ∧
    (postHomedir w1 req).2 = Response.HTML 200 "form.html"
      [("username", req.username), ("error", "Could not authenticate")] := by
  have hg := (ShouldBindWith_snd req).1 hform
  have key : ∀ w : World, (validatePassword w req.username req.password).2 ≠ none →
      (postHomedir w req).2 = couldNotAuthenticatePage req.username := by
    intro w hw
    rw [postHomedir_accepted w req hg]
    rcases afterBinding_cases w req.username req.password with
      ⟨e, -, h⟩ | ⟨h0, -, -⟩ | ⟨h0, -, -⟩
    · rw [h]
    · exact absurd h0 hw
    · exact absurd h0 hw
  rw [key w1 h1, key w2 h2]
  exact ⟨rfl, rfl⟩

theorem C5_authentication_failures_witness :
    (postHomedir (sampleWorld none (some "LDAP Result Code 49 \"Invalid Credentials\"") none)
        ⟨"alice", "wrong"⟩).2 =
      (postHomedir (sampleWorld none (some "LDAP Result Code 32 \"No Such Object\"") none)
        ⟨"alice", "wrong"⟩).2 ∧
    (postHomedir (sampleWorld none (some "LDAP Result Code 49 \"Invalid Credentials\"") none)
        ⟨"alice", "wrong"⟩).2 =
      Response.HTML 200 "form.html" [("username", "alice"), ("error", "Could not authenticate")] :=
  C5_authentication_failures_look_alike
    (sampleWorld none (some "LDAP Result Code 49 \"Invalid Credentials\"") none)
    (sampleWorld none (some "LDAP Result Code 32 \"No Such Object\"") none)
    ⟨"alice", "wrong"⟩ (by decide) (by decide) (by decide)

/-- What the handler answers once the username passed the validator and
`validatePassword` returned nil, by the error of `os.Stat`: the attachment
unless the error is a not-exist error, the `No home directory found` page if it
is; and an attachment is answered only after both checks and a stat that did
not report the file missing. -/
theorem postHomedir_delivery (w : World) (req : Request) :
    (usernameValidator req.username = true →
      (validatePassword w req.username req.password).2 = none →
        (IsNotExist (w.Stat ("/data/" ++ req.username ++ ".zip")) = false →
          (postHomedir w req).2 =
            Response.FileAttachment ("/data/" ++ req.username ++ ".zip")
              ("ch-homedir-" ++ req.username ++ ".zip")) ∧
        (w.Stat ("/data/" ++ req.username ++ ".zip") = none →
          (postHomedir w req).2 =
            Response.FileAttachment ("/data/" ++ req.username ++ ".zip")
              ("ch-homedir-" ++ req.username ++ ".zip")) ∧
        (w.Stat ("/data/" ++ req.username ++ ".zip") = some FileError.NotExist →
          (postHomedir w req).2 = Response.HTML 200 "form.html"
            [("username", req.username),
              ("error", "No home directory found for " ++ req.username)] ∧
          (postHomedir w req).2 ≠ couldNotAuthenticatePage req.username)) ∧
    (∀ p n, (postHomedir w req).2 = Response.FileAttachment p n →
      usernameValidator req.username = true ∧
      (validatePassword w req.username req.password).2 = none ∧
      IsNotExist (w.Stat p) = false ∧
      p = "/data/" ++ req.username ++ ".zip" ∧
      n = "ch-homedir-" ++ req.username ++ ".zip") := by
  constructor
  · intro hv ha
    have hg : usernameValidator req.username = true ∧ req.password ≠ "" :=
      ⟨hv, validatePassword_ok_password w _ _ ha⟩
    rw [postHomedir_accepted w req hg]
    have hcases := afterBinding_cases w req.username req.password
    rw [Sprintf_filenamePattern, Sprintf_downloadName] at hcases
    have hattach : IsNotExist (w.Stat ("/data/" ++ req.username ++ ".zip")) = false →
        (afterBinding w req.username req.password).2 =
          Response.FileAttachment ("/data/" ++ req.username ++ ".zip")
            ("ch-homedir-" ++ req.username ++ ".zip") := by
      intro hs
      rcases hcases with ⟨e, he, -⟩ | ⟨-, h0, -⟩ | ⟨-, -, h⟩
      · rw [ha] at he; cases he
      · rw [hs] at h0; cases h0
      · rw [h]
    refine ⟨hattach, fun hs => hattach (by rw [hs]; rfl), ?_⟩
    intro hs
    have hs2 : IsNotExist (w.Stat ("/data/" ++ req.username ++ ".zip")) = true := by
      rw [hs]; rfl
    rcases hcases with ⟨e, he, -⟩ | ⟨-, -, h⟩ | ⟨-, h0, -⟩
    · rw [ha] at he; cases he
    · rw [h]
      refine ⟨?_, noHomeDirectoryPage_ne_couldNot _ _⟩
      simp only [noHomeDirectoryPage, Sprintf_noHome]
    · rw [hs2] at h0; cases h0
  · intro p n h
    obtain ⟨hg, ha, hs, hp, hn⟩ := postHomedir_attachment w req p n h
    rw [Sprintf_filenamePattern] at hp hs
    rw [Sprintf_downloadName] at hn
    exact ⟨hg.1, ha, by rw [hp]; exact hs, hp, hn⟩

set_option maxRecDepth 100000 in
/-- C6: two runs in which a failed stat is not treated as a missing archive.
The username passes the validator and `validatePassword` returns nil, `os.Stat` on the
archive fails with an error that is not a not-exist error (`permission denied`
for `alice`; `file name too long` for a username of 256 characters, whose
archive cannot exist). The handler then skips the `No home directory found`
page and calls `FileAttachment` on a path it could not stat. -/
theorem C6_stat_failure_reaches_FileAttachment :
    (usernameValidator "alice" = true ∧
      (validatePassword (sampleWorld none none (some (FileError.Other "permission denied")))
        "alice" "secret").2 = none ∧
      (sampleWorld none none (some (FileError.Other "permission denied"))).Stat
        "/data/alice.zip" = some (FileError.Other "permission denied") ∧
      (postHomedir (sampleWorld none none (some (FileError.Other "permission denied")))
        ⟨"alice", "secret"⟩).2 =
          Response.FileAttachment "/data/alice.zip" "ch-homedir-alice.zip") ∧
    (usernameValidator longName = true ∧
      (validatePassword nameTooLongWorld longName "secret").2 = none ∧
      nameTooLongWorld.Stat ("/data/" ++ longName ++ ".zip") =
        some (FileError.Other "file name too long") ∧
      (postHomedir nameTooLongWorld ⟨longName, "secret"⟩).2 =
        Response.FileAttachment ("/data/" ++ longName ++ ".zip")
          ("ch-homedir-" ++ longName ++ ".zip") ∧
      (postHomedir nameTooLongWorld ⟨longName, "secret"⟩).2 ≠
        noHomeDirectoryPage longName) := by
  decide

/-! ## Start-up and the pool of CA roots -/

/-- When start-up ends up serving: the CA file was read, the template loaded
and the server runs; the pool is whatever was parsed from the file. -/
theorem main_serving_iff (w : StartupWorld) (roots : List String) :
    main w = Startup.Serving roots ↔
      ∃ cert, w.ReadFile "static/wisvch.crt" = Except.ok cert ∧
        w.LoadHTMLFiles "static/form.html" = none ∧ w.Run = none ∧
        roots = w.certificatesIn cert := by
  unfold main
  cases hr : w.ReadFile "static/wisvch.crt" with
  | error e => simp
  | ok cert =>
    cases hl : w.LoadHTMLFiles "static/form.html" with
    | some e => simp
    | none =>
      cases hrun : w.Run with
      | some e => simp
      | none =>
        simp only [List.nil_append, Startup.Serving.injEq, Except.ok.injEq, true_and,
          exists_eq_left']
        exact eq_comm

/-- C7: start-up evaluated on two CA files. A file that cannot be read ends in
the fatal error `could not read CA root`. A file that can be read but holds no
certificate (here an empty file) does not: nothing looks at what
`AppendCertsFromPEM` returns, and the server runs with an empty pool of
roots. -/
theorem C7_empty_pool_still_serves :
    main ⟨fun _ => Except.error "open static/wisvch.crt: no such file or directory",
        fun _ => [], fun _ => none, none⟩ =
      Startup.Fatal
        "could not read CA root: open static/wisvch.crt: no such file or directory" ∧
    main ⟨fun _ => Except.ok "", fun _ => [], fun _ => none, none⟩ = Startup.Serving [] := by
  decide

/-! ## The life of the LDAP connection -/

theorem Errorf_dial (e : String) :
    Errorf "could dial LDAP server: %w" [e] = "could dial LDAP server: " ++ e := by
  have hs : Errorf "could dial LDAP server: %w" [e] = "could dial LDAP server: " ++ e ++ "" :=
    rfl
  rw [hs]
  apply String.ext
  simp

theorem Errorf_bind (e : String) :
    Errorf "LDAP bind error: %w" [e] = "LDAP bind error: " ++ e := by
  have hs : Errorf "LDAP bind error: %w" [e] = "LDAP bind error: " ++ e ++ "" := rfl
  rw [hs]
  apply String.ext
  simp

theorem validatePassword_dial_failed (w : World) (u p e : String)
    (h : w.DialURL serverAddress = some e) :
    validatePassword w u p =
      ([Event.DialURL serverAddress false], some ("could dial LDAP server: " ++ e)) := by
  unfold validatePassword
  rw [h, ← Errorf_dial]

theorem validatePassword_dialled (w : World) (u p : String)
    (h : w.DialURL serverAddress = none) :
    validatePassword w u p =
      ([Event.DialURL serverAddress true,
          Event.Bind (Sprintf "uid=%s,ou=People,dc=ank,dc=chnet" [EscapeFilter u]) p,
          Event.Close],
        (connBind w (Sprintf "uid=%s,ou=People,dc=ank,dc=chnet" [EscapeFilter u]) p).map
          fun e => "LDAP bind error: " ++ e) := by
  unfold validatePassword
  rw [h]
  dsimp only
  cases connBind w (Sprintf "uid=%s,ou=People,dc=ank,dc=chnet" [EscapeFilter u]) p with
  | some e => simp only [Option.map_some', Errorf_bind]
  | none => rfl

/-- C8: in every run of `validatePassword`: if the dial succeeds the trace is
dial, one bind, one close, in this order, whether the bind succeeds or fails,
and the result is nil exactly when the bind succeeded; if the dial fails the
trace is the failed dial alone, with no bind and no close, and an error is
returned. No run ends with a connection open, and no run binds twice. -/
theorem C8_connection_lifecycle (w : World) (u p : String) :
    (w.DialURL serverAddress = none →
      ∃ dn, (validatePassword w u p).1 =
          [Event.DialURL serverAddress true, Event.Bind dn p, Event.Close] ∧
        bindCount (validatePassword w u p).1 = 1 ∧
        closeCount (validatePassword w u p).1 = 1 ∧
        ((validatePassword w u p).2 = none ↔ connBind w dn p = none)) ∧
    (∀ err, w.DialURL serverAddress = some err →
      (validatePassword w u p).1 = [Event.DialURL serverAddress false] ∧
      bindCount (validatePassword w u p).1 = 0 ∧
      closeCount (validatePassword w u p).1 = 0 ∧
      (validatePassword w u p).2 = some ("could dial LDAP server: " ++ err)) ∧
    openConnections (validatePassword w u p).1 0 = some 0 ∧
    bindCount (validatePassword w u p).1 ≤ 1 ∧
    bindCount (validatePassword w u p).1 = closeCount (validatePassword w u p).1 := by
  rcases Option.eq_none_or_eq_some (w.DialURL serverAddress) with hd | ⟨e, hd⟩
  · rw [validatePassword_dialled w u p hd]
    refine ⟨fun _ => ⟨_, rfl, rfl, rfl, ?_⟩, ?_, rfl, Nat.le_of_eq rfl, rfl⟩
    · simp
    · intro err h
      rw [hd] at h
      cases h
  · rw [validatePassword_dial_failed w u p e hd]
    refine ⟨?_, ?_, rfl, Nat.zero_le 1, rfl⟩
    · intro h
      rw [hd] at h
      cases h
    · intro err h
      rw [hd] at h
      cases h
      exact ⟨rfl, rfl, rfl, rfl⟩

/-! ## The characters of a validated username -/

theorem validated_chars (u : String) (h : usernameValidator u = true) :
    ∀ c ∈ u.data, isNameChar c := by
  obtain ⟨c, rest, h1, -, h3, h4⟩ := (usernameValidator_iff u).1 h
  intro d hd
  rw [h1] at hd
  rcases List.mem_cons.1 hd with rfl | hd
  · exact Or.inl h3
  · exact h4 d hd

theorem isNameChar_toNat (c : Char) (h : isNameChar c) :
    (97 ≤ c.toNat ∧ c.toNat ≤ 122) ∨ (48 ≤ c.toNat ∧ c.toNat ≤ 57) ∨ c.toNat = 45 ∨
      c.toNat = 95 := by
  unfold isNameChar at h
  simp only [Char.le_def, UInt32.le_def, Fin.le_def] at h
  rcases h with h | h | h | h
  · exact Or.inl h
  · exact Or.inr (Or.inl h)
  · subst h; decide
  · subst h; decide

theorem isNameChar_ne (c d : Char) (h : isNameChar c)
    (hd : ¬ ((97 ≤ d.toNat ∧ d.toNat ≤ 122) ∨ (48 ≤ d.toNat ∧ d.toNat ≤ 57) ∨ d.toNat = 45 ∨
      d.toNat = 95)) : c ≠ d := by
  intro heq
  subst heq
  exact hd (isNameChar_toNat c h)

theorem validated_not_mem (u : String) (h : usernameValidator u = true) (d : Char)
    (hd : ¬ ((97 ≤ d.toNat ∧ d.toNat ≤ 122) ∨ (48 ≤ d.toNat ∧ d.toNat ≤ 57) ∨ d.toNat = 45 ∨
      d.toNat = 95)) : d ∉ u.data := by
  intro hmem
  exact isNameChar_ne d d (validated_chars u h d hmem) hd rfl

theorem flatMap_singleton {α : Type} (f : α → List α) (l : List α)
    (h : ∀ a ∈ l, f a = [a]) : l.flatMap f = l := by
  induction l with
  | nil => rfl
  | cons a rest ih =>
    rw [List.flatMap_cons, h a (List.mem_cons_self _ _),
      ih (fun b hb => h b (List.mem_cons_of_mem _ hb))]
    rfl

theorem EscapeFilter_validated (u : String) (h : usernameValidator u = true) :
    EscapeFilter u = u := by
  unfold EscapeFilter
  apply String.ext
  show u.data.flatMap _ = u.data
  apply flatMap_singleton
  intro c hc
  have hn := isNameChar_toNat c (validated_chars u h c hc)
  have h1 : c.toNat < 0x80 := by omega
  have h2 : mustEscape c.toNat = false := by
    simp only [mustEscape, Bool.or_eq_false_iff, decide_eq_false_iff_not, beq_eq_false_iff_ne]
    have e1 : '('.toNat = 40 := by decide
    have e2 : ')'.toNat = 41 := by decide
    have e3 : '\\'.toNat = 92 := by decide
    have e4 : '*'.toNat = 42 := by decide
    rw [e1, e2, e3, e4]
    omega
  simp [h1, h2]

/-! ## Splitting at a separator -/

theorem splitOn_not_mem (sep : Char) (l : List Char) (h : sep ∉ l) : splitOn sep l = [l] := by
  induction l with
  | nil => rfl
  | cons c rest ih =>
    have hc : c ≠ sep := fun e => h (e ▸ List.mem_cons_self _ _)
    have hr : sep ∉ rest := fun m => h (List.mem_cons_of_mem _ m)
    simp [splitOn, hc, ih hr]

theorem splitOn_append (sep : Char) (a b : List Char) (h : sep ∉ a) :
    splitOn sep (a ++ sep :: b) = a :: splitOn sep b := by
  induction a with
  | nil => simp [splitOn]
  | cons c rest ih =>
    have hc : c ≠ sep := fun e => h (e ▸ List.mem_cons_self _ _)
    have hr : sep ∉ rest := fun m => h (List.mem_cons_of_mem _ m)
    simp [splitOn, hc, ih hr]

/-! ## The distinguished name and the path -/

theorem Sprintf_dn (u : String) :
    Sprintf "uid=%s,ou=People,dc=ank,dc=chnet" [u] = "uid=" ++ u ++ ",ou=People,dc=ank,dc=chnet" :=
  rfl

/-- C9: for a username the validator accepts, `EscapeFilter` returns it
unchanged, so the DN of the bind is `uid=<u>,ou=People,dc=ank,dc=chnet`; this
is the DN `validatePassword` binds with, and split at the commas it has exactly
four components, the first being `uid=<u>`. -/
theorem C9_bind_dn (u : String) (h : usernameValidator u = true) :
    EscapeFilter u = u ∧
    Sprintf "uid=%s,ou=People,dc=ank,dc=chnet" [EscapeFilter u] =
      "uid=" ++ u ++ ",ou=People,dc=ank,dc=chnet" ∧
    (∀ (w : World) (p : String), w.DialURL serverAddress = none →
      (validatePassword w u p).1 =
        [Event.DialURL serverAddress true,
          Event.Bind ("uid=" ++ u ++ ",ou=People,dc=ank,dc=chnet") p, Event.Close]) ∧
    splitOn ',' ("uid=" ++ u ++ ",ou=People,dc=ank,dc=chnet").data =
      [("uid=" ++ u).data, "ou=People".data, "dc=ank".data, "dc=chnet".data] ∧
    (splitOn ',' ("uid=" ++ u ++ ",ou=People,dc=ank,dc=chnet").data).length = 4 := by
  have hesc := EscapeFilter_validated u h
  have hcomma : ',' ∉ u.data := validated_not_mem u h ',' (by decide)
  have hsplit : splitOn ',' ("uid=" ++ u ++ ",ou=People,dc=ank,dc=chnet").data =
      [("uid=" ++ u).data, "ou=People".data, "dc=ank".data, "dc=chnet".data] := by
    have hd : ("uid=" ++ u ++ ",ou=People,dc=ank,dc=chnet").data =
        ("uid=" ++ u).data ++ ',' :: "ou=People,dc=ank,dc=chnet".data := by
      simp only [String.data_append]
    have hno : ',' ∉ ("uid=" ++ u).data := by
      simp only [String.data_append, List.mem_append, not_or]
      exact ⟨by decide, hcomma⟩
    rw [hd, splitOn_append ',' _ _ hno]
    have htail : splitOn ',' "ou=People,dc=ank,dc=chnet".data =
        ["ou=People".data, "dc=ank".data, "dc=chnet".data] := by decide
    rw [htail]
  refine ⟨hesc, by rw [hesc, Sprintf_dn], ?_, hsplit, by rw [hsplit]; rfl⟩
  intro w p hd
  rw [validatePassword_dialled w u p hd, hesc, Sprintf_dn]

theorem C9_bind_dn_witness :
    EscapeFilter "alice" = "alice" ∧
    splitOn ',' ("uid=" ++ "alice" ++ ",ou=People,dc=ank,dc=chnet").data =
      [("uid=" ++ "alice").data, "ou=People".data, "dc=ank".data, "dc=chnet".data] :=
  ⟨(C9_bind_dn "alice" (by decide)).1, (C9_bind_dn "alice" (by decide)).2.2.2.1⟩

/-- C10: for a username the validator accepts, the path that is formatted is
`/data/` followed by `<u>.zip`, and `<u>.zip` holds no slash, no backslash and
no NUL; the path has the three segments ``, `data` and `<u>.zip`, none of them
`..`; the only dot of `<u>.zip` is the one of the suffix. The handler stats and
serves this path and no other for the username, and two usernames with the same
path are the same username. -/
theorem C10_path_stays_in_data (u : String) (h : usernameValidator u = true) :
    Sprintf filenamePattern [u] = "/data/" ++ (u ++ ".zip") ∧
    '/' ∉ (u ++ ".zip").data ∧ '\\' ∉ (u ++ ".zip").data ∧ Char.ofNat 0 ∉ (u ++ ".zip").data ∧
    splitOn '/' (Sprintf filenamePattern [u]).data = [[], "data".data, (u ++ ".zip").data] ∧
    (∀ seg ∈ splitOn '/' (Sprintf filenamePattern [u]).data, seg ≠ "..".data) ∧
    (u ++ ".zip").data.count '.' = 1 ∧
    (∀ (w : World) (pw p : String), Event.Stat p ∈ (postHomedir w ⟨u, pw⟩).1 →
      p = "/data/" ++ (u ++ ".zip")) ∧
    (∀ (w : World) (pw p n : String), (postHomedir w ⟨u, pw⟩).2 = Response.FileAttachment p n →
      p = "/data/" ++ (u ++ ".zip")) ∧
    (∀ v : String, Sprintf filenamePattern [v] = Sprintf filenamePattern [u] → v = u) := by
  have hpath : Sprintf filenamePattern [u] = "/data/" ++ (u ++ ".zip") := by
    rw [Sprintf_filenamePattern]
    apply String.ext
    simp
  have hslash : '/' ∉ (u ++ ".zip").data := by
    simp only [String.data_append, List.mem_append, not_or]
    exact ⟨validated_not_mem u h '/' (by decide), by decide⟩
  have hback : '\\' ∉ (u ++ ".zip").data := by
    simp only [String.data_append, List.mem_append, not_or]
    exact ⟨validated_not_mem u h '\\' (by decide), by decide⟩
  have hnul : Char.ofNat 0 ∉ (u ++ ".zip").data := by
    simp only [String.data_append, List.mem_append, not_or]
    exact ⟨validated_not_mem u h (Char.ofNat 0) (by decide), by decide⟩
  have hdot : (u ++ ".zip").data.count '.' = 1 := by
    have h0 : u.data.count '.' = 0 :=
      List.count_eq_zero.2 (validated_not_mem u h '.' (by decide))
    have h1 : ".zip".data.count '.' = 1 := by decide
    simp only [String.data_append, List.count_append, h0, h1]
  have hsplit : splitOn '/' (Sprintf filenamePattern [u]).data =
      [[], "data".data, (u ++ ".zip").data] := by
    rw [hpath]
    have hd : ("/data/" ++ (u ++ ".zip")).data =
        [] ++ '/' :: ("data".data ++ '/' :: (u ++ ".zip").data) := by
      simp only [String.data_append]
      rfl
    rw [hd, splitOn_append '/' _ _ (by simp), splitOn_append '/' _ _ (by decide),
      splitOn_not_mem '/' _ hslash]
  refine ⟨hpath, hslash, hback, hnul, hsplit, ?_, hdot, ?_, ?_, ?_⟩
  · intro seg hseg
    rw [hsplit] at hseg
    simp only [List.mem_cons, List.mem_singleton, List.not_mem_nil, or_false] at hseg
    rcases hseg with rfl | rfl | rfl
    · decide
    · decide
    · intro heq
      rw [heq] at hdot
      exact absurd hdot (by decide)
  · intro w pw p hp
    by_cases hg : usernameValidator u = true ∧ pw ≠ ""
    · rw [postHomedir_accepted w ⟨u, pw⟩ hg] at hp
      obtain ⟨c, rest, hc⟩ := validatePassword_head w u pw
      have hv : ∀ e ∈ (validatePassword w u pw).1, e ≠ Event.Stat p := by
        intro e he
        rcases Option.eq_none_or_eq_some (w.DialURL serverAddress) with hdial | ⟨e2, hdial⟩
        · rw [validatePassword_dialled w u pw hdial] at he
          simp only [List.mem_cons, List.mem_singleton, List.not_mem_nil, or_false] at he
          rcases he with rfl | rfl | rfl <;> simp
        · rw [validatePassword_dial_failed w u pw e2 hdial] at he
          simp only [List.mem_singleton] at he
          subst he
          simp
      rcases afterBinding_cases w u pw with ⟨e, -, h2⟩ | ⟨-, -, h2⟩ | ⟨-, -, h2⟩ <;>
        rw [h2] at hp <;>
        simp only [List.mem_append, List.mem_cons, List.mem_singleton, List.not_mem_nil,
          or_false, Event.Stat.injEq, reduceCtorEq, false_or] at hp
      · exact absurd rfl (hv _ hp)
      · rcases hp with hp | hp
        · exact absurd rfl (hv _ hp)
        · rw [hp, hpath]
      · rcases hp with hp | hp
        · exact absurd rfl (hv _ hp)
        · rw [hp, hpath]
    · rw [postHomedir_rejected w ⟨u, pw⟩ hg] at hp
      simp at hp
  · intro w pw p n hp
    obtain ⟨-, -, -, h4, -⟩ := postHomedir_attachment w ⟨u, pw⟩ p n hp
    rw [h4, hpath]
  · intro v hv
    rw [Sprintf_filenamePattern, Sprintf_filenamePattern] at hv
    have hd := congrArg String.data hv
    simp only [String.data_append] at hd
    have h1 := List.append_cancel_right hd
    have h2 := List.append_cancel_left h1
    exact String.ext h2

theorem C10_path_stays_in_data_witness :
    Sprintf filenamePattern ["alice"] = "/data/" ++ ("alice" ++ ".zip") ∧
    '/' ∉ ("alice" ++ ".zip").data :=
  ⟨(C10_path_stays_in_data "alice" (by decide)).1,
   (C10_path_stays_in_data "alice" (by decide)).2.1⟩

end Homedirs
